import Mathlib

set_option maxRecDepth 100000
set_option allowUnsafeReducibility true

/-!
Verification development for the FTE baseload pipeline simulation engine
(`model.py`).  The engine is embedded shallowly: Python floats become `ℚ`
(exact arithmetic), month-aligned timestamps become integer month offsets
(`year * 12 + (month - 1)`), pandas Series over the month index become
functions `Int → ℚ` that vanish off the index, and dictionaries become
association lists.
-/

set_option maxHeartbeats 1000000

namespace FTE

/- The `Rat` arithmetic of Batteries is `@[irreducible]`, which blocks
`decide`-style evaluation of the engine on concrete configurations; restore
the default reducibility inside this development so concrete runs reduce. -/
attribute [local semireducible] Rat.add Rat.mul Rat.div Rat.inv Rat.sub Rat.neg Rat.blt

/-- The 1e-9 epsilon threshold used throughout `model.py` to skip
floating-point noise values. -/
def eps : ℚ := 1 / 1000000000

/-- `config.py` `StageParams`: parameters for one archetype in one stage. -/
structure StageParams where
  duration_months : Int
  cost_millions : ℚ
  fte_research : ℚ
  fte_developer : ℚ
deriving DecidableEq

/-- `config.py` `Archetype`: a project archetype; `stages` is the dict
`stage name → StageParams` as an association list. -/
structure Archetype where
  name : String
  portfolio_share : ℚ
  stages : List (String × StageParams)
deriving DecidableEq

/-- `config.py` `ModelConfig`: all user-configurable inputs. -/
structure ModelConfig where
  total_budget_m : ℚ
  overhead_pct : ℚ
  start_year : Int
  end_year : Int
  pipeline_stages : List String
  stage_mix : List (String × ℚ)
  stage_conversion_rates : List (String × ℚ)
  intake_spread_months : Int
  utilization_rate : ℚ
  ramp_months : Int
  archetypes : List Archetype
deriving DecidableEq

/-- One monthly record row appended by `_run_archetype`. -/
structure Record where
  month : Int
  year : Int
  archetype : String
  stage : String
  effective_projects : ℚ
  fte_research : ℚ
  fte_developer : ℚ
  fte_total : ℚ
deriving DecidableEq

/-- One row of the annual summary table built by `_build_annual_summary`. -/
structure AnnualRow where
  year : Int
  avg_monthly_fte : ℚ
  min_monthly_fte : ℚ
  max_monthly_fte : ℚ
  avg_research_fte : ℚ
  avg_developer_fte : ℚ
deriving DecidableEq

/-- Dictionary lookup on an association list (Python `dict[k]` /
`dict.get(k)`), returning the first binding. -/
def lookupD {α : Type} : List (String × α) → String → Option α
  | [], _ => none
  | (k, v) :: rest, key => if key = k then some v else lookupD rest key

/-- Inclusive integer range `[lo, hi]`, Python `range(lo, hi + 1)`. -/
def intRange (lo hi : Int) : List Int :=
  (List.range (hi + 1 - lo).toNat).map (fun i => lo + (i : Int))

/-- Absolute month offset of calendar month `m` (1-based) of year `y`:
the month-aligned timestamp `y-m-01`. -/
def monthAbs (y m : Int) : Int := y * 12 + (m - 1)

/-- Calendar year of an absolute month offset (`dt.year`). -/
def monthYear (t : Int) : Int := t.fdiv 12

/-- The contiguous monthly `pd.date_range(..., freq="MS")` index: first
month `lo`, `len` consecutive months. -/
structure MonthIdx where
  lo : Int
  len : Nat
deriving DecidableEq

/-- Membership of a month in the index (`ts in idx`). -/
def MonthIdx.mem (idx : MonthIdx) (t : Int) : Prop :=
  idx.lo ≤ t ∧ t < idx.lo + (idx.len : Int)

instance (idx : MonthIdx) (t : Int) : Decidable (idx.mem t) :=
  inferInstanceAs (Decidable (And _ _))

/-- The index as an ascending list of months (iteration order `for dt in idx`). -/
def MonthIdx.list (idx : MonthIdx) : List Int :=
  (List.range idx.len).map (fun i => idx.lo + (i : Int))

/-- `_available_budget`: `total_budget_m * (1 - overhead_pct)`. -/
def available_budget (cfg : ModelConfig) : ℚ :=
  cfg.total_budget_m * (1 - cfg.overhead_pct)

/-- `_expected_cost_from_stage`, recursing over the suffix of the stage
list from the entry stage onward: cost of the entry stage plus
(conversion rate × expected cost of entering the next stage), the latter
only when a next stage exists and the conversion rate is positive. -/
def expected_cost_from_stage (arch : Archetype) (conv_rates : List (String × ℚ)) :
    List String → ℚ
  | [] => 0
  | sname :: rest =>
    match lookupD arch.stages sname with
    | none => 0
    | some sp =>
      if rest = [] then sp.cost_millions
      else
        let conv := (lookupD conv_rates sname).getD 0
        if conv > 0 then
          sp.cost_millions + conv * expected_cost_from_stage arch conv_rates rest
        else sp.cost_millions

/-- Inner loop of `_weighted_cost_per_project` for one archetype: sum over
entry stages `i` of `stage_mix[stage_i] × expected_cost(..., i)`, counting
only stages with positive mix that the archetype defines. -/
def archWeightedCost (cfg : ModelConfig) (arch : Archetype) : List String → ℚ
  | [] => 0
  | sname :: rest =>
    let mix := (lookupD cfg.stage_mix sname).getD 0
    (if mix > 0 ∧ (lookupD arch.stages sname).isSome then
      mix * expected_cost_from_stage arch cfg.stage_conversion_rates (sname :: rest)
    else 0) + archWeightedCost cfg arch rest

/-- `_weighted_cost_per_project`: portfolio-share-weighted sum of the
per-archetype costs. -/
def weighted_cost_per_project (cfg : ModelConfig) : ℚ :=
  (cfg.archetypes.map
    (fun a => a.portfolio_share * archWeightedCost cfg a cfg.pipeline_stages)).sum

/-- `_projects_per_year`: `budget / weighted_cost`, with `0` when the
weighted cost is not positive. -/
def projects_per_year (cfg : ModelConfig) : ℚ :=
  let wc := weighted_cost_per_project cfg
  if wc ≤ 0 then 0 else available_budget cfg / wc

/-- One `starts.loc[ts] += v` update, guarded by `ts in starts.index`. -/
def addStart (idx : MonthIdx) (v : ℚ) (s : Int → ℚ) (t : Int) : Int → ℚ :=
  if idx.mem t then Function.update s t (s t + v) else s

/-- The (year, intake month) pairs enumerated by the direct-starts double
loop: every year in `[start_year, end_year]` crossed with months
`1..intake_spread_months`. -/
def ymPairs (cfg : ModelConfig) : List (Int × Int) :=
  (intRange cfg.start_year cfg.end_year).flatMap
    (fun y => (intRange 1 cfg.intake_spread_months).map (fun m => (y, m)))

/-- Direct-entry starts of `_run_archetype`: when `direct_n > 0`, add
`direct_n / max(intake_spread_months, 1)` at each in-index intake month. -/
def directStarts (cfg : ModelConfig) (direct_n : ℚ) (idx : MonthIdx) : Int → ℚ :=
  if direct_n > 0 then
    let monthly_n := direct_n / ((max cfg.intake_spread_months 1 : Int) : ℚ)
    (ymPairs cfg).foldl (fun s ym => addStart idx monthly_n s (monthAbs ym.1 ym.2))
      (fun _ => 0)
  else fun _ => 0

/-- `_active_stock`: active project-equivalents per month.  Each start of
size `≥ eps` at in-index month `m` contributes to months
`[m, m + duration)`; with a positive ramp the contribution at offset `k`
is scaled by `min 1 ((k+1)/ramp_months)`.  Written as the sum, over index
positions, of each start's contribution to the queried month (the loop in
the source accumulates the same terms in index order). -/
def active_stock (starts : Int → ℚ) (duration : Int) (idx : MonthIdx)
    (ramp_months : Int) : Int → ℚ :=
  fun t =>
    if ¬ idx.mem t then 0
    else if duration ≤ 0 then 0
    else if ramp_months ≤ 0 then
      ∑ i ∈ Finset.range idx.len,
        (if eps ≤ starts (idx.lo + i) ∧ idx.lo + i ≤ t ∧ t < idx.lo + i + duration
         then starts (idx.lo + i) else 0)
    else
      ∑ i ∈ Finset.range idx.len,
        (if eps ≤ starts (idx.lo + i) ∧ idx.lo + i ≤ t ∧ t < idx.lo + i + duration
         then starts (idx.lo + i) *
           min 1 (((t - (idx.lo + i) + 1 : Int) : ℚ) / ((ramp_months : Int) : ℚ))
         else 0)

/-- Completion stream of `_run_archetype`: each start of size `≥ eps` at
month `m` lands at `m + dur` when that month is in the index (the landing
month determines the unique contributing start). -/
def completions (starts : Int → ℚ) (dur : Int) (idx : MonthIdx) : Int → ℚ :=
  fun t =>
    if idx.mem t ∧ idx.mem (t - dur) ∧ eps ≤ starts (t - dur)
    then starts (t - dur) else 0

/-- The start series `_run_archetype` builds for one stage: direct starts
plus, past the first stage with surviving completions, the converted
inflow `prev_completions × conversion_rate(previous stage)` when that
rate is positive. -/
def stageStarts (cfg : ModelConfig) (archProjects : ℚ) (idx : MonthIdx)
    (sname : String) (prevName : Option String) (prevComps : Option (Int → ℚ)) :
    Int → ℚ :=
  let direct_n := archProjects * ((lookupD cfg.stage_mix sname).getD 0)
  let base := directStarts cfg direct_n idx
  match prevComps, prevName with
  | some pc, some pn =>
    let conv := (lookupD cfg.stage_conversion_rates pn).getD 0
    if conv > 0 then fun t => base t + pc t * conv else base
  | _, _ => base

/-- Record emission of `_run_archetype`: one row per index month whose
active value is at least `eps`. -/
def stageRecords (idx : MonthIdx) (archName sname : String) (active : Int → ℚ)
    (fte_r fte_d utilization : ℚ) : List Record :=
  idx.list.filterMap (fun t =>
    if eps ≤ active t then
      some { month := t, year := monthYear t, archetype := archName, stage := sname,
             effective_projects := active t,
             fte_research := active t * fte_r / utilization,
             fte_developer := active t * fte_d / utilization,
             fte_total := active t * (fte_r + fte_d) / utilization }
    else none)

/-- The stage loop of `_run_archetype`: iterate the pipeline stages in
order, carrying the previous stage's name and completion stream; a stage
the archetype does not define emits nothing and clears the completions. -/
def runStagesAux (cfg : ModelConfig) (arch : Archetype) (archProjects : ℚ)
    (idx : MonthIdx) (utilization : ℚ) :
    List String → Option String → Option (Int → ℚ) → List Record
  | [], _, _ => []
  | sname :: rest, prevName, prevComps =>
    match lookupD arch.stages sname with
    | none => runStagesAux cfg arch archProjects idx utilization rest (some sname) none
    | some sp =>
      let starts := stageStarts cfg archProjects idx sname prevName prevComps
      let active := active_stock starts sp.duration_months idx cfg.ramp_months
      let comps := completions starts sp.duration_months idx
      stageRecords idx arch.name sname active sp.fte_research sp.fte_developer utilization
        ++ runStagesAux cfg arch archProjects idx utilization rest (some sname) (some comps)

/-- `_run_archetype`: run one archetype through all pipeline stages. -/
def run_archetype (cfg : ModelConfig) (arch : Archetype) (archProjects : ℚ)
    (idx : MonthIdx) (utilization : ℚ) : List Record :=
  runStagesAux cfg arch archProjects idx utilization cfg.pipeline_stages none none

/-- Total in-pipeline duration of one archetype (`arch_dur` in `run`). -/
def archDuration (cfg : ModelConfig) (a : Archetype) : Int :=
  a.stages.foldl
    (fun acc p => if p.1 ∈ cfg.pipeline_stages then acc + p.2.duration_months else acc) 0

/-- `tail_months` in `run`: the longest archetype total duration. -/
def tailMonths (cfg : ModelConfig) : Int :=
  cfg.archetypes.foldl (fun acc a => max acc (archDuration cfg a)) 0

/-- The month index `run` builds: January of `start_year` through December
of `end_year` plus the tail. -/
def buildIdx (cfg : ModelConfig) : MonthIdx :=
  let lo := monthAbs cfg.start_year 1
  let hi := monthAbs cfg.end_year 12 + tailMonths cfg
  { lo := lo, len := (hi - lo + 1).toNat }

/-- Output of `run`: the flat monthly record table and projects-per-year. -/
structure RunResult where
  monthly : List Record
  projects_per_year : ℚ
deriving DecidableEq

/-- `run`: compute projects-per-year, build the index, run every archetype
(volume split by portfolio share), and collect the records in order. -/
def run (cfg : ModelConfig) : RunResult :=
  let total_proj := projects_per_year cfg
  let idx := buildIdx cfg
  let utilization := max cfg.utilization_rate (1 / 100)
  { monthly :=
      (cfg.archetypes.map
        (fun arch => run_archetype cfg arch (total_proj * arch.portfolio_share) idx utilization)).flatten,
    projects_per_year := total_proj }

/-- Sum of a list of rationals grouped values (`.sum` of a pandas group). -/
def listSum (l : List ℚ) : ℚ := l.sum

/-- Mean of a list of rationals (pandas `.mean()` on a nonempty group). -/
def listMean (l : List ℚ) : ℚ := l.sum / (l.length : ℚ)

/-- Minimum of a nonempty list of rationals (pandas `.min()`). -/
def listMin : List ℚ → ℚ
  | [] => 0
  | x :: xs => xs.foldl min x

/-- Maximum of a nonempty list of rationals (pandas `.max()`). -/
def listMax : List ℚ → ℚ
  | [] => 0
  | x :: xs => xs.foldl max x

/-- Round-half-to-even at integer precision, the rounding of Python's
`round`. -/
def roundHalfEven (q : ℚ) : Int :=
  let f := ⌊q⌋
  if q - f < 1 / 2 then f
  else if 1 / 2 < q - f then f + 1
  else if f % 2 = 0 then f else f + 1

/-- Python `round(x, 1)`: round half to even at one decimal. -/
def round1 (q : ℚ) : ℚ := ((roundHalfEven (q * 10) : Int) : ℚ) / 10

/-- Per-month sums of one numeric field over one year's records, grouped
by month (`yr_data.groupby("month").agg(...)`); the list ranges over the
distinct months of that year's records. -/
def yearMonthTotals (recs : List Record) (yr : Int) (f : Record → ℚ) : List ℚ :=
  let yrData := recs.filter (fun r => r.year = yr)
  ((yrData.map (fun r => r.month)).dedup).map
    (fun t => ((yrData.filter (fun r => r.month = t)).map f).sum)

/-- One row of `_build_annual_summary`: all zeros when the year has no
records, otherwise rounded mean/min/max of monthly `fte_total` sums and
rounded means of the research and developer sums. -/
def annualRow (recs : List Record) (yr : Int) : AnnualRow :=
  if recs.filter (fun r => r.year = yr) = [] then
    { year := yr, avg_monthly_fte := 0, min_monthly_fte := 0, max_monthly_fte := 0,
      avg_research_fte := 0, avg_developer_fte := 0 }
  else
    { year := yr,
      avg_monthly_fte := round1 (listMean (yearMonthTotals recs yr (fun r => r.fte_total))),
      min_monthly_fte := round1 (listMin (yearMonthTotals recs yr (fun r => r.fte_total))),
      max_monthly_fte := round1 (listMax (yearMonthTotals recs yr (fun r => r.fte_total))),
      avg_research_fte := round1 (listMean (yearMonthTotals recs yr (fun r => r.fte_research))),
      avg_developer_fte := round1 (listMean (yearMonthTotals recs yr (fun r => r.fte_developer))) }

/-- `_build_annual_summary`: empty table when there are no records at all,
otherwise one row per year in `[start_year, end_year]`. -/
def build_annual_summary (recs : List Record) (cfg : ModelConfig) : List AnnualRow :=
  if recs = [] then []
  else (intRange cfg.start_year cfg.end_year).map (annualRow recs)

/-- `_steady_state`: (avg, min, max) of the monthly `fte_total` sums of the
last intake year, falling back one year, else zeros. -/
def steady_state (monthly : List Record) (cfg : ModelConfig) : ℚ × ℚ × ℚ :=
  if monthly = [] then (0, 0, 0)
  else
    let ly0 := monthly.filter (fun r => r.year = cfg.end_year)
    let ly := if ly0 = [] then monthly.filter (fun r => r.year = cfg.end_year - 1) else ly0
    if ly = [] then (0, 0, 0)
    else
      let totals := ((ly.map (fun r => r.month)).dedup).map
        (fun t => ((ly.filter (fun r => r.month = t)).map (fun r => r.fte_total)).sum)
      (listMean totals, listMin totals, listMax totals)

/-- `config.py` `ModelResult`: output container of `run_model`. -/
structure ModelResult where
  monthly : List Record
  annual_summary : List AnnualRow
  steady_state_avg : ℚ
  steady_state_min_month : ℚ
  steady_state_max_month : ℚ
  projects_per_year : ℚ
deriving DecidableEq

/-- `run_model`: run the engine and assemble the result container. -/
def run_model (cfg : ModelConfig) : ModelResult :=
  let res := run cfg
  let ss := steady_state res.monthly cfg
  { monthly := res.monthly,
    annual_summary := build_annual_summary res.monthly cfg,
    steady_state_avg := ss.1,
    steady_state_min_month := ss.2.1,
    steady_state_max_month := ss.2.2,
    projects_per_year := res.projects_per_year }

/-! ### Concrete configurations used by the claim theorems -/

/-- Early-stage parameters of the §8 scenario. -/
def spEarly : StageParams :=
  { duration_months := 6, cost_millions := 5, fte_research := 1, fte_developer := 0 }

/-- Late-stage parameters of the §8 scenario. -/
def spLate : StageParams :=
  { duration_months := 6, cost_millions := 10, fte_research := 0, fte_developer := 1 }

/-- The single archetype of the §8 scenario. -/
def arch8 : Archetype :=
  { name := "Arch", portfolio_share := 1,
    stages := [("Early", spEarly), ("Late", spLate)] }

/-- The §8 scenario configuration: two stages, mix 0.2/0.8, Early→Late
conversion 0.5, budget 100, overhead 0, one intake month, 2026 only,
utilization 1, no ramp. -/
def cfg8 : ModelConfig :=
  { total_budget_m := 100, overhead_pct := 0,
    start_year := 2026, end_year := 2026,
    pipeline_stages := ["Early", "Late"],
    stage_mix := [("Early", 1/5), ("Late", 4/5)],
    stage_conversion_rates := [("Early", 1/2)],
    intake_spread_months := 1, utilization_rate := 1, ramp_months := 0,
    archetypes := [arch8] }

/-- One expected row of the §8 scenario's monthly table (year 2026,
archetype `"Arch"`). -/
def c1row (t : Int) (st : String) (n r d : ℚ) : Record :=
  { month := t, year := 2026, archetype := "Arch", stage := st,
    effective_projects := n, fte_research := r, fte_developer := d, fte_total := n }

/-- Single-stage archetype with a 6-month, cost-1 stage employing one
researcher per project. -/
def archS : Archetype :=
  { name := "A", portfolio_share := 1,
    stages := [("S", { duration_months := 6, cost_millions := 1,
                       fte_research := 1, fte_developer := 0 })] }

/-- A configuration whose budget makes projects-per-year equal to
`5e-10 < eps`, so the engine's single start event is sub-epsilon. -/
def cfg2 : ModelConfig :=
  { total_budget_m := 1 / 2000000000, overhead_pct := 0,
    start_year := 2026, end_year := 2026,
    pipeline_stages := ["S"],
    stage_mix := [("S", 1)],
    stage_conversion_rates := [],
    intake_spread_months := 1, utilization_rate := 1, ramp_months := 0,
    archetypes := [archS] }

/-- The stage-"S" start series the engine builds for `cfg2` (exactly the
series `run` hands to `_active_stock`: archetype volume is
projects-per-year times the archetype's portfolio share). -/
def c2starts : Int → ℚ :=
  stageStarts cfg2 (projects_per_year cfg2 * archS.portfolio_share) (buildIdx cfg2)
    "S" none none

/-- Modelled from the spec: §7 says the epsilon filter must be applied
"only at the final record-emission step, not before summation", so the
sums feeding the active stock must include sub-epsilon start values.
This is the unsuppressed sliding-window sum those words describe, to be
compared with `active_stock` (which drops sub-epsilon starts). -/
def active_stock_spec_all (starts : Int → ℚ) (duration : Int) (idx : MonthIdx) :
    Int → ℚ :=
  fun t =>
    if ¬ idx.mem t then 0
    else if duration ≤ 0 then 0
    else
      ∑ i ∈ Finset.range idx.len,
        (if idx.lo + i ≤ t ∧ t < idx.lo + i + duration then starts (idx.lo + i) else 0)

/-- A configuration with an empty archetype list (spec §7 allows it). -/
def cfg3 : ModelConfig :=
  { total_budget_m := 100, overhead_pct := 0,
    start_year := 2026, end_year := 2026,
    pipeline_stages := ["S"],
    stage_mix := [("S", 1)],
    stage_conversion_rates := [],
    intake_spread_months := 1, utilization_rate := 1, ramp_months := 0,
    archetypes := [] }

/-- A single concrete record, used to exercise the annual summary. -/
def rec3 : Record :=
  { month := 24312, year := 2026, archetype := "A", stage := "S",
    effective_projects := 1, fte_research := 1, fte_developer := 0, fte_total := 1 }

/-- A start series with one cohort of size `n` at month `m`. -/
def singleStart (m : Int) (n : ℚ) : Int → ℚ :=
  fun t => if t = m then n else 0

/-- Concrete start series with two cohorts, for witnesses. -/
def w4starts : Int → ℚ :=
  fun t => if t = 0 then 2 else if t = 3 then 1 else 0

/-- Concrete sub-epsilon start series, for witnesses. -/
def w2starts : Int → ℚ :=
  fun t => if t = 0 then 1 / 2000000000 else 0

/-- The contribution of the start at month `m` to the no-ramp active count
at month `t`: the start value when it is an in-index, non-negligible start
whose `[m, m + duration)` window covers `t`, else nothing. -/
def windowTerm (idx : MonthIdx) (starts : Int → ℚ) (duration t m : Int) : ℚ :=
  if idx.mem m ∧ eps ≤ starts m ∧ m ≤ t ∧ t < m + duration then starts m else 0

/-! ### Claim theorems -/

/-- C1: for the §8 scenario configuration `cfg8`, the engine computes
weighted cost per project exactly 10 and projects-per-year exactly 10,
and its monthly table consists exactly of: Early `effective_projects = 2`
for January through June 2026, Late `effective_projects = 8` for January
through June 2026, and Late `effective_projects = 1` for July through
December 2026 (the converted inflow 2 × 0.5 = 1 starting in July 2026).
Months are absolute offsets: `monthAbs 2026 1 … monthAbs 2026 12` are
January … December 2026. -/
theorem C1_scenario_exact :
    weighted_cost_per_project cfg8 = 10 ∧
    (run cfg8).projects_per_year = 10 ∧
    (run cfg8).monthly =
      (intRange (monthAbs 2026 1) (monthAbs 2026 6)).map (fun t => c1row t "Early" 2 2 0)
        ++ (intRange (monthAbs 2026 1) (monthAbs 2026 6)).map (fun t => c1row t "Late" 8 0 8)
        ++ (intRange (monthAbs 2026 7) (monthAbs 2026 12)).map (fun t => c1row t "Late" 1 0 1) := by
  decide

/-- C8: projects-per-year is `net_budget / weighted_cost_per_project`
(with `net_budget = gross × (1 − overhead)`) guarded so that a
non-positive weighted cost yields 0 rather than a division fault, and
`overhead = 1` always yields projects-per-year 0. -/
theorem C8_projects_per_year_guarded (cfg : ModelConfig) :
    projects_per_year cfg =
      (if weighted_cost_per_project cfg ≤ 0 then 0
       else available_budget cfg / weighted_cost_per_project cfg) ∧
    projects_per_year { cfg with overhead_pct := 1 } = 0 := by
  constructor
  · rfl
  · show (if weighted_cost_per_project { cfg with overhead_pct := 1 } ≤ 0 then (0:ℚ)
      else available_budget { cfg with overhead_pct := 1 } /
        weighted_cost_per_project { cfg with overhead_pct := 1 }) = 0
    have hb : available_budget { cfg with overhead_pct := 1 } = 0 := by
      unfold available_budget
      simp
    rw [hb]
    split
    · rfl
    · exact zero_div _

/-- C9: the engine is a pure function of the configuration: two runs of
`run_model` on the unchanged configuration produce exactly equal monthly
tables, annual summaries, steady-state scalars and projects-per-year. -/
theorem C9_run_model_deterministic (cfg : ModelConfig) (r1 r2 : ModelResult)
    (h1 : r1 = run_model cfg) (h2 : r2 = run_model cfg) :
    r1.monthly = r2.monthly ∧ r1.annual_summary = r2.annual_summary ∧
    r1.steady_state_avg = r2.steady_state_avg ∧
    r1.steady_state_min_month = r2.steady_state_min_month ∧
    r1.steady_state_max_month = r2.steady_state_max_month ∧
    r1.projects_per_year = r2.projects_per_year := by
  subst h1
  subst h2
  exact ⟨rfl, rfl, rfl, rfl, rfl, rfl⟩

/-- C2 counterexample: for `cfg2` the engine's own stage-"S" start series
has the positive sub-epsilon value 5e-10 in January 2026, yet
`_active_stock` already drops it before summation (the suppressed active
stock is 0 where the spec's unsuppressed sum is 5e-10), the emitted
monthly table is empty, and therefore the sums feeding annual aggregation
(which range over the emitted records only) never see the value: the
suppression is not presentation-only. -/
theorem C2_suppression_loses_data_counterexample :
    0 < c2starts (monthAbs 2026 1) ∧
    c2starts (monthAbs 2026 1) < eps ∧
    active_stock c2starts 6 (buildIdx cfg2) 0 (monthAbs 2026 1) = 0 ∧
    active_stock_spec_all c2starts 6 (buildIdx cfg2) (monthAbs 2026 1)
      = 1 / 2000000000 ∧
    (run cfg2).monthly = [] ∧
    build_annual_summary (run cfg2).monthly cfg2 = [] := by
  decide

/-- C2 amended: sub-epsilon suppression is applied before summation as
well: a start value below the epsilon threshold contributes nothing to
`_active_stock` or to the completion stream (zeroing such a start changes
neither), so sub-epsilon values are lost upstream of record emission, and
the sums feeding annual aggregation range over only the emitted records. -/
theorem C2_epsilon_skips_subeps_starts (starts : Int → ℚ) (m : Int)
    (h : starts m < eps) (duration : Int) (idx : MonthIdx) (ramp : Int) :
    active_stock (Function.update starts m 0) duration idx ramp
      = active_stock starts duration idx ramp ∧
    completions (Function.update starts m 0) duration idx
      = completions starts duration idx := by
  have heps : (0 : ℚ) < eps := by norm_num [eps]
  constructor
  · funext t
    unfold active_stock
    have key : ∀ i : ℕ,
        (if eps ≤ Function.update starts m 0 (idx.lo + i) ∧
            idx.lo + i ≤ t ∧ t < idx.lo + i + duration
         then Function.update starts m 0 (idx.lo + i) else 0)
        = (if eps ≤ starts (idx.lo + i) ∧ idx.lo + i ≤ t ∧ t < idx.lo + i + duration
           then starts (idx.lo + i) else 0) := by
      intro i
      rcases eq_or_ne (idx.lo + (i : Int)) m with hm | hm
      · rw [hm, Function.update_same,
            if_neg (fun hc => absurd hc.1 (not_le.mpr heps)),
            if_neg (fun hc => absurd hc.1 (not_le.mpr h))]
      · rw [Function.update_noteq hm]
    have key2 : ∀ i : ℕ,
        (if eps ≤ Function.update starts m 0 (idx.lo + i) ∧
            idx.lo + i ≤ t ∧ t < idx.lo + i + duration
         then Function.update starts m 0 (idx.lo + i) *
           min 1 (((t - (idx.lo + i) + 1 : Int) : ℚ) / ((ramp : Int) : ℚ))
         else 0)
        = (if eps ≤ starts (idx.lo + i) ∧ idx.lo + i ≤ t ∧ t < idx.lo + i + duration
           then starts (idx.lo + i) *
             min 1 (((t - (idx.lo + i) + 1 : Int) : ℚ) / ((ramp : Int) : ℚ))
           else 0) := by
      intro i
      rcases eq_or_ne (idx.lo + (i : Int)) m with hm | hm
      · rw [hm, Function.update_same,
            if_neg (fun hc => absurd hc.1 (not_le.mpr heps)),
            if_neg (fun hc => absurd hc.1 (not_le.mpr h))]
      · rw [Function.update_noteq hm]
    rw [Finset.sum_congr rfl (fun i _ => key i),
        Finset.sum_congr rfl (fun i _ => key2 i)]
  · funext t
    unfold completions
    rcases eq_or_ne (t - duration) m with hm | hm
    · rw [hm, Function.update_same,
          if_neg (fun hc => absurd hc.2.2 (not_le.mpr heps)),
          if_neg (fun hc => absurd hc.2.2 (not_le.mpr h))]
    · rw [Function.update_noteq hm]

/-- Witness for the amended C2 at a concrete sub-epsilon start series. -/
theorem C2_epsilon_skips_subeps_starts_witness :
    w2starts 0 < eps ∧
    (active_stock (Function.update w2starts 0 0) 6 ⟨0, 12⟩ 0
        = active_stock w2starts 6 ⟨0, 12⟩ 0 ∧
     completions (Function.update w2starts 0 0) 6 ⟨0, 12⟩
        = completions w2starts 6 ⟨0, 12⟩) :=
  ⟨by decide, C2_epsilon_skips_subeps_starts w2starts 0 (by decide) 6 ⟨0, 12⟩ 0⟩

/-- C3 counterexample: for the archetype-free configuration `cfg3`
(years `[2026, 2026]`) the monthly table is empty and
`_build_annual_summary` returns an empty table — the year 2026 is
omitted, not reported as an all-zero row. -/
theorem C3_empty_year_omitted_counterexample :
    (run cfg3).monthly = [] ∧
    build_annual_summary (run cfg3).monthly cfg3 = [] ∧
    intRange cfg3.start_year cfg3.end_year = [2026] := by
  decide

/-- C3 amended: when the monthly record table is nonempty, the annual
summary has exactly one row per calendar year of `[start_year, end_year]`
in that order; a year with no records yields the all-zero row, and a year
with records reports the rounded mean/min/max of the per-month summed
`fte_total` plus the rounded means of the per-month summed research and
developer FTE.  (When the whole monthly table is empty the summary is the
empty table, as the C3 counterexample shows.) -/
theorem C3_annual_summary_amended (cfg : ModelConfig) (recs : List Record)
    (h : recs ≠ []) :
    (build_annual_summary recs cfg).map (fun row => row.year)
      = intRange cfg.start_year cfg.end_year ∧
    ∀ row ∈ build_annual_summary recs cfg,
      (recs.filter (fun r => r.year = row.year) = [] →
        row = { year := row.year, avg_monthly_fte := 0, min_monthly_fte := 0,
                max_monthly_fte := 0, avg_research_fte := 0, avg_developer_fte := 0 }) ∧
      (recs.filter (fun r => r.year = row.year) ≠ [] →
        row.avg_monthly_fte
            = round1 (listMean (yearMonthTotals recs row.year (fun r => r.fte_total))) ∧
        row.min_monthly_fte
            = round1 (listMin (yearMonthTotals recs row.year (fun r => r.fte_total))) ∧
        row.max_monthly_fte
            = round1 (listMax (yearMonthTotals recs row.year (fun r => r.fte_total))) ∧
        row.avg_research_fte
            = round1 (listMean (yearMonthTotals recs row.year (fun r => r.fte_research))) ∧
        row.avg_developer_fte
            = round1 (listMean (yearMonthTotals recs row.year (fun r => r.fte_developer)))) := by
  have hyear : ∀ yr, (annualRow recs yr).year = yr := by
    intro yr
    unfold annualRow
    split <;> rfl
  unfold build_annual_summary
  rw [if_neg h]
  constructor
  · rw [List.map_map,
        show ((fun row : AnnualRow => row.year) ∘ annualRow recs) = id from
          funext (fun yr => hyear yr),
        List.map_id]
  · intro row hrow
    rcases List.mem_map.mp hrow with ⟨yr, hyr, rfl⟩
    rw [hyear]
    constructor
    · intro hf
      unfold annualRow
      rw [if_pos hf]
    · intro hf
      unfold annualRow
      rw [if_neg hf]
      exact ⟨rfl, rfl, rfl, rfl, rfl⟩

/-- Witness for the amended C3 on a one-record table. -/
theorem C3_annual_summary_amended_witness :
    ([rec3] : List Record) ≠ [] ∧
    ((build_annual_summary [rec3] cfg3).map (fun row => row.year)
        = intRange cfg3.start_year cfg3.end_year ∧
     ∀ row ∈ build_annual_summary [rec3] cfg3,
       (([rec3] : List Record).filter (fun r => r.year = row.year) = [] →
         row = { year := row.year, avg_monthly_fte := 0, min_monthly_fte := 0,
                 max_monthly_fte := 0, avg_research_fte := 0, avg_developer_fte := 0 }) ∧
       (([rec3] : List Record).filter (fun r => r.year = row.year) ≠ [] →
         row.avg_monthly_fte
             = round1 (listMean (yearMonthTotals [rec3] row.year (fun r => r.fte_total))) ∧
         row.min_monthly_fte
             = round1 (listMin (yearMonthTotals [rec3] row.year (fun r => r.fte_total))) ∧
         row.max_monthly_fte
             = round1 (listMax (yearMonthTotals [rec3] row.year (fun r => r.fte_total))) ∧
         row.avg_research_fte
             = round1 (listMean (yearMonthTotals [rec3] row.year (fun r => r.fte_research))) ∧
         row.avg_developer_fte
             = round1 (listMean (yearMonthTotals [rec3] row.year (fun r => r.fte_developer))))) :=
  ⟨by decide, C3_annual_summary_amended cfg3 [rec3] (by decide)⟩

/-- Helper: every record emitted by `stageRecords` carries that stage's
name, the archetype's name, and an active value of at least `eps`. -/
theorem mem_stageRecords_fields (idx : MonthIdx) (an sn : String)
    (active : Int → ℚ) (fr fd u : ℚ) (r : Record)
    (h : r ∈ stageRecords idx an sn active fr fd u) :
    r.stage = sn ∧ r.archetype = an ∧ eps ≤ r.effective_projects := by
  unfold stageRecords at h
  rcases List.mem_filterMap.mp h with ⟨t, ht, hf⟩
  by_cases hle : eps ≤ active t
  · rw [if_pos hle] at hf
    cases hf
    exact ⟨rfl, rfl, hle⟩
  · rw [if_neg hle] at hf
    exact absurd hf (by simp)

/-- Helper: every record produced by the stage loop names a stage from the
remaining stage list and has an active value of at least `eps`. -/
theorem mem_runStagesAux_fields (cfg : ModelConfig) (arch : Archetype) (ap : ℚ)
    (idx : MonthIdx) (util : ℚ) :
    ∀ (l : List String) (pn : Option String) (pc : Option (Int → ℚ)) (r : Record),
      r ∈ runStagesAux cfg arch ap idx util l pn pc →
      r.stage ∈ l ∧ eps ≤ r.effective_projects := by
  intro l
  induction l with
  | nil =>
    intro pn pc r h
    simp [runStagesAux] at h
  | cons sname rest ih =>
    intro pn pc r h
    cases hl : lookupD arch.stages sname with
    | none =>
      simp only [runStagesAux, hl] at h
      rcases ih _ _ r h with ⟨hs, he⟩
      exact ⟨List.mem_cons_of_mem _ hs, he⟩
    | some sp =>
      simp only [runStagesAux, hl] at h
      rcases List.mem_append.mp h with hmem | hmem
      · rcases mem_stageRecords_fields _ _ _ _ _ _ _ _ hmem with ⟨hs, _, he⟩
        exact ⟨hs ▸ List.mem_cons_self _ _, he⟩
      · rcases ih _ _ r hmem with ⟨hs, he⟩
        exact ⟨List.mem_cons_of_mem _ hs, he⟩

/-- C7: a stage the archetype does not define is skipped: the stage loop
continues on the remaining stages with the carried completions cleared
(`prev_completions = None`), and — when the skipped name does not recur
later in the pipeline — no emitted record names the skipped stage. -/
theorem C7_skipped_stage_severs_chain (cfg : ModelConfig) (arch : Archetype)
    (ap : ℚ) (idx : MonthIdx) (util : ℚ) (sname : String) (rest : List String)
    (pn : Option String) (pc : Option (Int → ℚ))
    (h : lookupD arch.stages sname = none) :
    runStagesAux cfg arch ap idx util (sname :: rest) pn pc
      = runStagesAux cfg arch ap idx util rest (some sname) none ∧
    (sname ∉ rest →
      ∀ r ∈ runStagesAux cfg arch ap idx util (sname :: rest) pn pc,
        r.stage ≠ sname) := by
  have heq : runStagesAux cfg arch ap idx util (sname :: rest) pn pc
      = runStagesAux cfg arch ap idx util rest (some sname) none := by
    simp only [runStagesAux, h]
  refine ⟨heq, fun hnot r hr hstage => ?_⟩
  rw [heq] at hr
  have hs := (mem_runStagesAux_fields cfg arch ap idx util rest (some sname) none r hr).1
  rw [hstage] at hs
  exact hnot hs

/-- Witness for C7: a three-stage pipeline whose archetype omits the
middle stage. -/
theorem C7_skipped_stage_severs_chain_witness :
    lookupD arch8.stages "Mid" = none ∧
    (runStagesAux cfg8 arch8 10 (buildIdx cfg8) 1 ["Mid", "Late"] (some "Early") none
        = runStagesAux cfg8 arch8 10 (buildIdx cfg8) 1 ["Late"] (some "Mid") none ∧
     ("Mid" ∉ (["Late"] : List String) →
      ∀ r ∈ runStagesAux cfg8 arch8 10 (buildIdx cfg8) 1 ["Mid", "Late"] (some "Early") none,
        r.stage ≠ "Mid")) :=
  ⟨by decide,
   C7_skipped_stage_severs_chain cfg8 arch8 10 (buildIdx cfg8) 1 "Mid" ["Late"]
     (some "Early") none (by decide)⟩

/-- C10: every row of the monthly table returned by `run` has
`effective_projects ≥ 1e-9`, hence strictly positive: the emission filter
admits no zero, negative, or sub-epsilon row. -/
theorem C10_monthly_records_above_eps (cfg : ModelConfig) (r : Record)
    (h : r ∈ (run cfg).monthly) :
    eps ≤ r.effective_projects ∧ 0 < r.effective_projects := by
  have heps : (0 : ℚ) < eps := by norm_num [eps]
  unfold run at h
  simp only [List.mem_flatten, List.mem_map] at h
  rcases h with ⟨l, ⟨a, ha, rfl⟩, hrl⟩
  unfold run_archetype at hrl
  have := (mem_runStagesAux_fields cfg a _ _ _ cfg.pipeline_stages none none r hrl).2
  exact ⟨this, lt_of_lt_of_le heps this⟩

/-- Witness for C10 at a concrete record of the §8 scenario's table. -/
theorem C10_monthly_records_above_eps_witness :
    c1row 24312 "Early" 2 2 0 ∈ (run cfg8).monthly ∧
    (eps ≤ (c1row 24312 "Early" 2 2 0).effective_projects ∧
     0 < (c1row 24312 "Early" 2 2 0).effective_projects) :=
  ⟨by decide, C10_monthly_records_above_eps cfg8 (c1row 24312 "Early" 2 2 0) (by decide)⟩

/-- C6: in a two-stage pipeline, stage 2's start series is its direct
starts plus exactly `c ×` the stage-1 completion stream (`c ≥ 0` the
conversion rate of stage 1); each completion lands exactly
`duration_months(stage 1)` months after the corresponding stage-1 start
when that landing month is in the index, and completions landing outside
the index are dropped (the completion stream is zero off the index). -/
theorem C6_conversion_conservation (cfg : ModelConfig) (arch : Archetype)
    (archProjects : ℚ) (idx : MonthIdx) (s1 s2 : String) (sp1 : StageParams)
    (_htwo : cfg.pipeline_stages = [s1, s2])
    (_hsp1 : lookupD arch.stages s1 = some sp1)
    (hc : 0 ≤ (lookupD cfg.stage_conversion_rates s1).getD 0) :
    (∀ t,
      stageStarts cfg archProjects idx s2 (some s1)
          (some (completions (stageStarts cfg archProjects idx s1 none none)
            sp1.duration_months idx)) t
        = directStarts cfg (archProjects * ((lookupD cfg.stage_mix s2).getD 0)) idx t
          + ((lookupD cfg.stage_conversion_rates s1).getD 0)
            * completions (stageStarts cfg archProjects idx s1 none none)
                sp1.duration_months idx t) ∧
    (∀ m, idx.mem m → idx.mem (m + sp1.duration_months) →
      eps ≤ stageStarts cfg archProjects idx s1 none none m →
      completions (stageStarts cfg archProjects idx s1 none none)
          sp1.duration_months idx (m + sp1.duration_months)
        = stageStarts cfg archProjects idx s1 none none m) ∧
    (∀ t, ¬ idx.mem t →
      completions (stageStarts cfg archProjects idx s1 none none)
          sp1.duration_months idx t = 0) := by
  refine ⟨?_, ?_, ?_⟩
  · intro t
    by_cases hpos : (lookupD cfg.stage_conversion_rates s1).getD 0 > 0
    · simp only [stageStarts, if_pos hpos]
      ring
    · have h0 : (lookupD cfg.stage_conversion_rates s1).getD 0 = 0 :=
        le_antisymm (not_lt.mp hpos) hc
      simp [stageStarts, h0]
  · intro m hm hmd hstart
    unfold completions
    rw [if_pos ⟨hmd, by rw [add_sub_cancel_right]; exact hm,
                by rw [add_sub_cancel_right]; exact hstart⟩,
        add_sub_cancel_right]
  · intro t ht
    unfold completions
    exact if_neg (fun hcond => ht hcond.1)

/-- Witness for C6 at the §8 scenario (conversion rate 1/2 ≥ 0). -/
theorem C6_conversion_conservation_witness :
    cfg8.pipeline_stages = ["Early", "Late"] ∧
    lookupD arch8.stages "Early" = some spEarly ∧
    0 ≤ (lookupD cfg8.stage_conversion_rates "Early").getD 0 ∧
    ((∀ t,
      stageStarts cfg8 10 (buildIdx cfg8) "Late" (some "Early")
          (some (completions (stageStarts cfg8 10 (buildIdx cfg8) "Early" none none)
            spEarly.duration_months (buildIdx cfg8))) t
        = directStarts cfg8 (10 * ((lookupD cfg8.stage_mix "Late").getD 0)) (buildIdx cfg8) t
          + ((lookupD cfg8.stage_conversion_rates "Early").getD 0)
            * completions (stageStarts cfg8 10 (buildIdx cfg8) "Early" none none)
                spEarly.duration_months (buildIdx cfg8) t) ∧
    (∀ m, (buildIdx cfg8).mem m → (buildIdx cfg8).mem (m + spEarly.duration_months) →
      eps ≤ stageStarts cfg8 10 (buildIdx cfg8) "Early" none none m →
      completions (stageStarts cfg8 10 (buildIdx cfg8) "Early" none none)
          spEarly.duration_months (buildIdx cfg8) (m + spEarly.duration_months)
        = stageStarts cfg8 10 (buildIdx cfg8) "Early" none none m) ∧
    (∀ t, ¬ (buildIdx cfg8).mem t →
      completions (stageStarts cfg8 10 (buildIdx cfg8) "Early" none none)
          spEarly.duration_months (buildIdx cfg8) t = 0)) :=
  ⟨rfl, by decide, by decide,
   C6_conversion_conservation cfg8 arch8 10 (buildIdx cfg8) "Early" "Late" spEarly
     rfl (by decide) (by decide)⟩

/-- C4: with no ramp and `duration ≥ 1`, `_active_stock` is a sliding
window: at every in-index month `t`, the active count equals the sum of
the non-negligible start events lying in the trailing `duration`-month
window `(t − duration, t]`. -/
theorem C4_sliding_window (starts : Int → ℚ) (duration : Int) (idx : MonthIdx)
    (ramp : Int) (t : Int) (hd : 1 ≤ duration) (hr : ramp ≤ 0) (ht : idx.mem t) :
    active_stock starts duration idx ramp t =
      ∑ m ∈ Finset.Ioc (t - duration) t,
        (if idx.mem m ∧ eps ≤ starts m then starts m else 0) := by
  have hA : active_stock starts duration idx ramp t
      = ∑ i ∈ Finset.range idx.len, windowTerm idx starts duration t (idx.lo + (i : ℤ)) := by
    unfold active_stock
    rw [if_neg (not_not_intro ht), if_neg (by omega : ¬ duration ≤ 0), if_pos hr]
    refine Finset.sum_congr rfl (fun i hi => ?_)
    have hi' := Finset.mem_range.mp hi
    have hmem : idx.mem (idx.lo + (i : ℤ)) := ⟨by omega, by omega⟩
    simp [windowTerm, hmem]
  have hB : (∑ m ∈ Finset.Ioc (t - duration) t,
        (if idx.mem m ∧ eps ≤ starts m then starts m else 0))
      = ∑ m ∈ Finset.Ioc (t - duration) t, windowTerm idx starts duration t m := by
    refine Finset.sum_congr rfl (fun m hm => ?_)
    have hm' := Finset.mem_Ioc.mp hm
    have h1 : m ≤ t := hm'.2
    have h2 : t < m + duration := by omega
    simp [windowTerm, h1, h2]
  have hmap : (Finset.range idx.len).map
        ⟨fun i : ℕ => idx.lo + (i : ℤ), fun a b hab => by simpa using hab⟩
      = Finset.Ico idx.lo (idx.lo + (idx.len : ℤ)) := by
    ext m
    simp only [Finset.mem_map, Finset.mem_range, Function.Embedding.coeFn_mk,
      Finset.mem_Ico]
    constructor
    · rintro ⟨i, hi, rfl⟩
      omega
    · rintro ⟨h1, h2⟩
      exact ⟨(m - idx.lo).toNat, by omega, by omega⟩
  have hC : (∑ i ∈ Finset.range idx.len, windowTerm idx starts duration t (idx.lo + (i : ℤ)))
      = ∑ m ∈ Finset.Ico idx.lo (idx.lo + (idx.len : ℤ)), windowTerm idx starts duration t m := by
    rw [← hmap, Finset.sum_map]
    rfl
  have hzero1 : ∀ m ∈ Finset.Ico idx.lo (idx.lo + (idx.len : ℤ)),
      m ∉ Finset.Ioc (t - duration) t → windowTerm idx starts duration t m = 0 := by
    intro m _ hm
    rw [Finset.mem_Ioc] at hm
    unfold windowTerm
    rw [if_neg]
    rintro ⟨_, _, h3, h4⟩
    exact hm ⟨by omega, h3⟩
  have hzero2 : ∀ m ∈ Finset.Ioc (t - duration) t,
      m ∉ Finset.Ico idx.lo (idx.lo + (idx.len : ℤ)) → windowTerm idx starts duration t m = 0 := by
    intro m _ hm
    rw [Finset.mem_Ico] at hm
    unfold windowTerm
    rw [if_neg]
    rintro ⟨h1, _⟩
    exact hm ⟨h1.1, h1.2⟩
  have e1 : ∑ m ∈ (Finset.Ico idx.lo (idx.lo + (idx.len : ℤ))
        ∩ Finset.Ioc (t - duration) t), windowTerm idx starts duration t m
      = ∑ m ∈ Finset.Ico idx.lo (idx.lo + (idx.len : ℤ)), windowTerm idx starts duration t m :=
    Finset.sum_subset Finset.inter_subset_left
      (fun x hx hnx => hzero1 x hx (fun hIoc => hnx (Finset.mem_inter.mpr ⟨hx, hIoc⟩)))
  have e2 : ∑ m ∈ (Finset.Ico idx.lo (idx.lo + (idx.len : ℤ))
        ∩ Finset.Ioc (t - duration) t), windowTerm idx starts duration t m
      = ∑ m ∈ Finset.Ioc (t - duration) t, windowTerm idx starts duration t m :=
    Finset.sum_subset Finset.inter_subset_right
      (fun x hx hnx => hzero2 x hx (fun hIco => hnx (Finset.mem_inter.mpr ⟨hIco, hx⟩)))
  rw [hA, hC, ← e1, e2, ← hB]

/-- Witness for C4: two concrete cohorts, window queried at month 4. -/
theorem C4_sliding_window_witness :
    (1 : Int) ≤ 6 ∧ (0 : Int) ≤ 0 ∧ (MonthIdx.mk 0 12).mem 4 ∧
    active_stock w4starts 6 ⟨0, 12⟩ 0 4 =
      ∑ m ∈ Finset.Ioc ((4 : Int) - 6) 4,
        (if (MonthIdx.mk 0 12).mem m ∧ eps ≤ w4starts m then w4starts m else 0) :=
  ⟨by decide, by decide, by decide,
   C4_sliding_window w4starts 6 ⟨0, 12⟩ 0 4 (by decide) (by decide) (by decide)⟩

/-- Helper for C5: the active contribution of a single in-index cohort of
non-negligible size `n` starting at month `m`, queried at offset
`0 ≤ k < duration`, is `n × min(1, (k+1)/ramp)`. -/
theorem active_stock_single_ramp (m : Int) (n : ℚ) (duration ramp : Int)
    (idx : MonthIdx) (hn : eps ≤ n) (hr : 0 < ramp) (k : Int) (hk0 : 0 ≤ k)
    (hkd : k < duration) (hlo : idx.lo ≤ m)
    (hhi : m + duration ≤ idx.lo + (idx.len : Int)) :
    active_stock (singleStart m n) duration idx ramp (m + k)
      = n * min 1 (((k + 1 : Int) : ℚ) / ((ramp : Int) : ℚ)) := by
  have heps : (0 : ℚ) < eps := by norm_num [eps]
  have hmem : idx.mem (m + k) := ⟨by omega, by omega⟩
  unfold active_stock
  rw [if_neg (not_not_intro hmem), if_neg (by omega : ¬ duration ≤ 0),
      if_neg (by omega : ¬ ramp ≤ 0)]
  have hi0lt : (m - idx.lo).toNat < idx.len := by omega
  have hi0 : idx.lo + (((m - idx.lo).toNat : ℕ) : ℤ) = m := by omega
  refine Eq.trans (Finset.sum_eq_single ((m - idx.lo).toNat) ?_ ?_) ?_
  · intro b hb hbne
    have hne : idx.lo + (b : ℤ) ≠ m := by
      intro hEq
      exact hbne (by omega)
    unfold singleStart
    rw [if_neg hne, if_neg (fun hcond => absurd hcond.1 (not_le.mpr heps))]
  · intro habs
    exact absurd (Finset.mem_range.mpr hi0lt) habs
  · rw [hi0]
    unfold singleStart
    rw [if_pos (rfl : m = m), if_pos ⟨hn, by omega, by omega⟩]
    have hcast : (m + k - m + 1 : ℤ) = k + 1 := by omega
    rw [hcast]

/-- C5: for a single cohort of non-negligible size `n` at in-index month
`m`, with `ramp_months = r > 1` and `duration ≥ r`, the active
contribution strictly increases over offsets `0 .. r−1` and equals `n` at
every offset from `r−1` through `duration − 1`. -/
theorem C5_ramp_monotone (m : Int) (n : ℚ) (duration ramp : Int) (idx : MonthIdx)
    (hn : eps ≤ n) (hr1 : 1 < ramp) (hrd : ramp ≤ duration)
    (hlo : idx.lo ≤ m) (hhi : m + duration ≤ idx.lo + (idx.len : Int)) :
    (∀ k j : Int, 0 ≤ k → k < j → j < ramp →
      active_stock (singleStart m n) duration idx ramp (m + k)
        < active_stock (singleStart m n) duration idx ramp (m + j)) ∧
    (∀ k : Int, ramp - 1 ≤ k → k < duration →
      active_stock (singleStart m n) duration idx ramp (m + k) = n) := by
  have heps : (0 : ℚ) < eps := by norm_num [eps]
  have hnpos : (0 : ℚ) < n := lt_of_lt_of_le heps hn
  have hr0 : (0 : ℤ) < ramp := by omega
  have hrq : (0 : ℚ) < ((ramp : ℤ) : ℚ) := by exact_mod_cast hr0
  constructor
  · intro k j hk0 hkj hjr
    rw [active_stock_single_ramp m n duration ramp idx hn hr0 k hk0 (by omega) hlo hhi,
        active_stock_single_ramp m n duration ramp idx hn hr0 j (by omega) (by omega) hlo hhi]
    have hk1 : ((k + 1 : ℤ) : ℚ) / ((ramp : ℤ) : ℚ) ≤ 1 := by
      rw [div_le_one hrq]
      exact_mod_cast (by omega : k + 1 ≤ ramp)
    have hj1 : ((j + 1 : ℤ) : ℚ) / ((ramp : ℤ) : ℚ) ≤ 1 := by
      rw [div_le_one hrq]
      exact_mod_cast (by omega : j + 1 ≤ ramp)
    rw [min_eq_right hk1, min_eq_right hj1]
    have hlt : ((k + 1 : ℤ) : ℚ) < ((j + 1 : ℤ) : ℚ) := by
      exact_mod_cast (by omega : k + 1 < j + 1)
    have hdiv : ((k + 1 : ℤ) : ℚ) / ((ramp : ℤ) : ℚ)
        < ((j + 1 : ℤ) : ℚ) / ((ramp : ℤ) : ℚ) := by
      rw [div_lt_div_iff₀ hrq hrq]
      exact mul_lt_mul_of_pos_right hlt hrq
    exact mul_lt_mul_of_pos_left hdiv hnpos
  · intro k hk1 hkd
    rw [active_stock_single_ramp m n duration ramp idx hn hr0 k (by omega) hkd hlo hhi]
    have h1 : (1 : ℚ) ≤ ((k + 1 : ℤ) : ℚ) / ((ramp : ℤ) : ℚ) := by
      rw [le_div_iff₀ hrq, one_mul]
      exact_mod_cast (by omega : ramp ≤ k + 1)
    rw [min_eq_left h1, mul_one]

/-- Witness for C5: cohort of size 1 at month 0, ramp 2, duration 3. -/
theorem C5_ramp_monotone_witness :
    eps ≤ (1 : ℚ) ∧ (1 : Int) < 2 ∧ (2 : Int) ≤ 3 ∧
    ((∀ k j : Int, 0 ≤ k → k < j → j < 2 →
      active_stock (singleStart 0 1) 3 ⟨0, 3⟩ 2 (0 + k)
        < active_stock (singleStart 0 1) 3 ⟨0, 3⟩ 2 (0 + j)) ∧
     (∀ k : Int, 2 - 1 ≤ k → k < 3 →
      active_stock (singleStart 0 1) 3 ⟨0, 3⟩ 2 (0 + k) = 1)) :=
  ⟨by decide, by decide, by decide,
   C5_ramp_monotone 0 1 3 2 ⟨0, 3⟩ (by decide) (by decide) (by decide)
     (by decide) (by decide)⟩

/-- Witness for C9 at the concrete §8 configuration. -/
theorem C9_run_model_deterministic_witness :
    (run_model cfg8).monthly = (run_model cfg8).monthly ∧
    (run_model cfg8).annual_summary = (run_model cfg8).annual_summary ∧
    (run_model cfg8).steady_state_avg = (run_model cfg8).steady_state_avg ∧
    (run_model cfg8).steady_state_min_month = (run_model cfg8).steady_state_min_month ∧
    (run_model cfg8).steady_state_max_month = (run_model cfg8).steady_state_max_month ∧
    (run_model cfg8).projects_per_year = (run_model cfg8).projects_per_year :=
  C9_run_model_deterministic cfg8 (run_model cfg8) (run_model cfg8) rfl rfl

end FTE
